import Mathlib

/-!
# Shallow embedding of `train_RPBCAC`
(`Byzantine-resilient Actor-Critic/training/train_agents.py`)

The Python source is a single training function.  We embed, piece by piece,
the parts of its control flow and data flow that the specification talks
about:

* the role labels and the cooperative-node filter (`agent_label`,
  `(x for x in range(n_agents) if args['agent_label'][x] == 'Cooperative')`);
* the team-average reward accumulation (lines 111-113);
* the Stage-I local/compromised/no-op update dispatch (lines 120-136);
* the Stage-II resilient-consensus loop (lines 140-160);
* the actor-update pass with its `[-max_ep_len*n_ep_fixed:]` slices
  (lines 164-168);
* the experience-buffer trim (lines 173-180);
* the episode/step loop skeleton with its cycle-boundary test
  (lines 51, 55, 75, 100);
* the initialization of the experience lists from `exp_buffer`
  (lines 39-47) together with the Python name-binding discipline that
  decides whether the appends at lines 86-91 can run.

Numeric tensors are modelled over `ℚ` (the reward arithmetic of the claims is
exact), or over a type parameter where only data flow matters.  A tensor's
leading time axis is a Lean `List`; a 2-d `[time, node]` tensor is a
`List (List _)` and the Python column read `m[:, node]` is a `map` of a
row lookup.
-/

namespace RPBCAC

/-- The four agent labels of `args['agent_label']`. -/
inductive Role where
  | Cooperative
  | Greedy
  | Malicious
  | Faulty
deriving DecidableEq, Repr

/-- `args['agent_label'].count('Cooperative')` (line 33). -/
def nCoop (labels : List Role) : ℕ :=
  labels.count Role.Cooperative

/-- The generator `(x for x in range(n_agents) if args['agent_label'][x] ==
'Cooperative')` used at lines 112, 140 and elsewhere, with
`n_agents = len(agent_label)`.  Out-of-range indexing cannot occur because the
range is the label list's length. -/
def coopNodes (labels : List Role) : List ℕ :=
  (List.range labels.length).filter
    (fun x => labels.getD x Role.Faulty == Role.Cooperative)

/-- Lines 111-113: `r_coop = 0; for node in coopNodes: r_coop += r[:,node] /
n_coop`.  We model one time-slice of the reward tensor as a function from node
index to `ℚ`; the full tensor version is this applied pointwise in time. -/
def rCoop (labels : List Role) (r : ℕ → ℚ) : ℚ :=
  (coopNodes labels).foldl (fun acc node => acc + r node / (nCoop labels : ℚ)) 0

/-- The spec-side quantity for comparison: the unweighted mean of the rewards
of exactly the Cooperative nodes. -/
def coopMean (labels : List Role) (r : ℕ → ℚ) : ℚ :=
  ((coopNodes labels).map r).sum / ((coopNodes labels).length : ℚ)

lemma rCoop_foldl (labels : List Role) (r : ℕ → ℚ) :
    ∀ (L : List ℕ) (acc : ℚ),
      L.foldl (fun acc node => acc + r node / (nCoop labels : ℚ)) acc
        = acc + (L.map r).sum / (nCoop labels : ℚ) := by
  intro L
  induction L with
  | nil => intro acc; simp
  | cons x xs ih =>
      intro acc
      simp only [List.foldl_cons, List.map_cons, List.sum_cons]
      rw [ih, add_div, ← add_assoc]

/-- The number of indices the cooperative generator yields equals the label
count `n_coop` computed at line 33. -/
lemma length_coopNodes (labels : List Role) :
    (coopNodes labels).length = nCoop labels := by
  unfold coopNodes nCoop
  induction labels using List.reverseRecOn with
  | nil => simp
  | append_singleton l a ih =>
      rw [List.length_append, List.length_singleton, List.range_succ,
        List.filter_append, List.length_append, List.count_append]
      have hfilter :
          (List.range l.length).filter
              (fun x => (l ++ [a]).getD x Role.Faulty == Role.Cooperative)
            = (List.range l.length).filter
              (fun x => l.getD x Role.Faulty == Role.Cooperative) := by
        apply List.filter_congr
        intro x hx
        have hlt : x < l.length := List.mem_range.mp hx
        have : (l ++ [a]).getD x Role.Faulty = l.getD x Role.Faulty := by
          unfold List.getD
          rw [List.get?_append hlt]
        rw [this]
      rw [hfilter, ih]
      by_cases h : a = Role.Cooperative
      · subst h
        simp [List.getD]
      · have hgetD : (l ++ [a]).getD l.length Role.Faulty = a := by
          unfold List.getD
          rw [List.get?_concat_length]
          rfl
        simp [hgetD, h, List.count_singleton]

/-- C4 body: the accumulated `r_coop` is the sum of cooperative rewards
divided by `n_coop`, i.e. the unweighted mean over exactly the Cooperative
nodes. -/
lemma rCoop_eq_coopMean (labels : List Role) (r : ℕ → ℚ) :
    rCoop labels r = coopMean labels r := by
  unfold rCoop coopMean
  rw [rCoop_foldl, zero_add, length_coopNodes]

/-- The concrete reward slice `[1, 2, 3, 4]` of the spec's example. -/
def exampleRewards : ℕ → ℚ := fun node => ([1, 2, 3, 4] : List ℚ).getD node 0

/-- The concrete role vector `[Cooperative, Cooperative, Greedy, Malicious]`
of the spec's example. -/
def exampleLabels : List Role :=
  [Role.Cooperative, Role.Cooperative, Role.Greedy, Role.Malicious]

/-- C4: the team-average reward computed at lines 111-113 is the unweighted
mean of the reward stream over exactly the Cooperative nodes; on the reward
vector `[1, 2, 3, 4]` with roles `[Cooperative, Cooperative, Greedy,
Malicious]` it equals `(1+2)/2 = 3/2`. -/
theorem rCoop_is_coop_mean :
    (∀ (labels : List Role) (r : ℕ → ℚ), rCoop labels r = coopMean labels r)
      ∧ rCoop exampleLabels exampleRewards = 3 / 2 := by
  constructor
  · exact rCoop_eq_coopMean
  · unfold rCoop coopNodes nCoop exampleLabels exampleRewards
    have hg : Role.Greedy ≠ Role.Cooperative := by decide
    have hm : Role.Malicious ≠ Role.Cooperative := by decide
    norm_num [List.range_succ, List.filter, List.foldl, List.count_cons,
      List.count_nil, hg, hm]

/-!
## Experience replay buffers (lines 47, 86-91, 173-180)
-/

/-- The six experience lists `states, nstates, actions, rewards,
observations, nobservations`.  Entry types are abstracted: only lengths and
order matter to the claims. -/
structure Buffers (α : Type) where
  states : List α
  nstates : List α
  actions : List α
  rewards : List α
  observations : List α
  nobservations : List α
deriving DecidableEq, Repr

/-- Line 47: `states, nstates, actions, rewards, observations, nobservations
= [], [], [], [], [], []`. -/
def emptyBuffers (α : Type) : Buffers α := ⟨[], [], [], [], [], []⟩

/-- One transition's worth of appended data (lines 86-91 append one entry to
each list). -/
structure Transition (α : Type) where
  state : α
  nstate : α
  action : α
  reward : α
  observation : α
  nobservation : α

/-- Lines 86-91: append one transition to the six lists. -/
def appendTransition (b : Buffers α) (tr : Transition α) : Buffers α :=
  ⟨b.states ++ [tr.state], b.nstates ++ [tr.nstate], b.actions ++ [tr.action],
   b.rewards ++ [tr.reward], b.observations ++ [tr.observation],
   b.nobservations ++ [tr.nobservation]⟩

/-- Lines 173-180: `if len(states) > buffer_size: q = len(states) -
buffer_size; del states[:q]; ...` — deleting the first `q` entries of each of
the six lists. -/
def trimBuffers (buffer_size : ℕ) (b : Buffers α) : Buffers α :=
  if b.states.length > buffer_size then
    let q := b.states.length - buffer_size
    ⟨b.states.drop q, b.nstates.drop q, b.actions.drop q, b.rewards.drop q,
     b.observations.drop q, b.nobservations.drop q⟩
  else b

/-- A buffer built by appending a sequence of transitions to the empty
buffer. -/
def buffersOf (ts : List (Transition α)) : Buffers α :=
  ts.foldl appendTransition (emptyBuffers α)

/-- All six lists of a buffer built from appends have the same length. -/
lemma buffersOf_lengths (ts : List (Transition α)) :
    (buffersOf ts).nstates.length = (buffersOf ts).states.length
      ∧ (buffersOf ts).actions.length = (buffersOf ts).states.length
      ∧ (buffersOf ts).rewards.length = (buffersOf ts).states.length
      ∧ (buffersOf ts).observations.length = (buffersOf ts).states.length
      ∧ (buffersOf ts).nobservations.length = (buffersOf ts).states.length := by
  suffices h : ∀ (b : Buffers α),
      b.nstates.length = b.states.length →
      b.actions.length = b.states.length →
      b.rewards.length = b.states.length →
      b.observations.length = b.states.length →
      b.nobservations.length = b.states.length →
      (ts.foldl appendTransition b).nstates.length
          = (ts.foldl appendTransition b).states.length
        ∧ (ts.foldl appendTransition b).actions.length
          = (ts.foldl appendTransition b).states.length
        ∧ (ts.foldl appendTransition b).rewards.length
          = (ts.foldl appendTransition b).states.length
        ∧ (ts.foldl appendTransition b).observations.length
          = (ts.foldl appendTransition b).states.length
        ∧ (ts.foldl appendTransition b).nobservations.length
          = (ts.foldl appendTransition b).states.length by
    exact h (emptyBuffers α) rfl rfl rfl rfl rfl
  induction ts with
  | nil => intro b h1 h2 h3 h4 h5; exact ⟨h1, h2, h3, h4, h5⟩
  | cons t ts ih =>
      intro b h1 h2 h3 h4 h5
      exact ih (appendTransition b t)
        (by simp [appendTransition, h1]) (by simp [appendTransition, h2])
        (by simp [appendTransition, h3]) (by simp [appendTransition, h4])
        (by simp [appendTransition, h5])

/-- The drop performed by the trim keeps a suffix of length
`min (length) capacity`. -/
lemma trim_drop_spec (cap : ℕ) (l : List α) (hlen : l.length > cap) :
    (l.drop (l.length - cap)).length = min l.length cap
      ∧ l.drop (l.length - cap) <:+ l := by
  constructor
  · rw [List.length_drop]
    omega
  · exact List.drop_suffix _ l

/-- C5: after the trim at a cycle boundary, each of the six experience lists
has length at most `buffer_size`, and each surviving list is a suffix of the
pre-trim list of length `min (pre-trim length) buffer_size` — i.e. exactly
the most recently appended entries, oldest removed first, order kept. -/
theorem trimBuffers_bound (α : Type) (ts : List (Transition α))
    (buffer_size : ℕ) :
    let b := buffersOf ts
    let b' := trimBuffers buffer_size b
    (b'.states.length ≤ buffer_size ∧ b'.nstates.length ≤ buffer_size
      ∧ b'.actions.length ≤ buffer_size ∧ b'.rewards.length ≤ buffer_size
      ∧ b'.observations.length ≤ buffer_size
      ∧ b'.nobservations.length ≤ buffer_size)
    ∧ (b'.states <:+ b.states ∧ b'.nstates <:+ b.nstates
      ∧ b'.actions <:+ b.actions ∧ b'.rewards <:+ b.rewards
      ∧ b'.observations <:+ b.observations
      ∧ b'.nobservations <:+ b.nobservations)
    ∧ (b'.states.length = min b.states.length buffer_size
      ∧ b'.nstates.length = min b.nstates.length buffer_size
      ∧ b'.actions.length = min b.actions.length buffer_size
      ∧ b'.rewards.length = min b.rewards.length buffer_size
      ∧ b'.observations.length = min b.observations.length buffer_size
      ∧ b'.nobservations.length = min b.nobservations.length buffer_size) := by
  intro b b'
  obtain ⟨h1, h2, h3, h4, h5⟩ := buffersOf_lengths ts
  have hb : b = buffersOf ts := rfl
  rw [← hb] at h1 h2 h3 h4 h5
  show _ ∧ _ ∧ _
  by_cases hgt : b.states.length > buffer_size
  · have hb' : b' = ⟨b.states.drop (b.states.length - buffer_size),
        b.nstates.drop (b.states.length - buffer_size),
        b.actions.drop (b.states.length - buffer_size),
        b.rewards.drop (b.states.length - buffer_size),
        b.observations.drop (b.states.length - buffer_size),
        b.nobservations.drop (b.states.length - buffer_size)⟩ := by
      show trimBuffers buffer_size b = _
      rw [trimBuffers, if_pos hgt]
    rw [hb']
    refine ⟨⟨?_, ?_, ?_, ?_, ?_, ?_⟩,
      ⟨List.drop_suffix _ _, List.drop_suffix _ _, List.drop_suffix _ _,
        List.drop_suffix _ _, List.drop_suffix _ _, List.drop_suffix _ _⟩,
      ?_, ?_, ?_, ?_, ?_, ?_⟩ <;>
      simp only [List.length_drop, h1, h2, h3, h4, h5] <;> omega
  · have hb' : b' = b := by
      show trimBuffers buffer_size b = b
      rw [trimBuffers, if_neg hgt]
    rw [hb']
    refine ⟨⟨?_, ?_, ?_, ?_, ?_, ?_⟩,
      ⟨List.suffix_refl _, List.suffix_refl _, List.suffix_refl _,
        List.suffix_refl _, List.suffix_refl _, List.suffix_refl _⟩,
      ?_, ?_, ?_, ?_, ?_, ?_⟩ <;> omega

/-!
## Stage I — local critic and team-average reward updates (lines 120-136)

The agents' update methods are external black boxes (spec §1 excludes the
function approximators), so a returned weight snapshot is faithfully
represented by the call that produced it: the method invoked together with
the reward/target argument it received.  The tensors `sa`, `obs`, `nobs` are
passed to every update alike and carry no claim-relevant information, so the
descriptors record only the reward signal.  Reward tensors are represented by
one `ℚ` time-slice (all updates treat them opaquely and pointwise).
-/

/-- A call to one of an agent's critic/TR update or read methods, recording
the reward or target signal it was handed. -/
inductive UpdateCall where
  | TR_update_local (reward : ℚ)
  | critic_update_local (reward : ℚ)
  | TR_update_compromised (target : ℚ)
  | critic_update_compromised (target : ℚ)
  | get_TR_weights
  | get_critic_weights
deriving DecidableEq, Repr

/-- What one iteration of the Stage-I loop body (lines 120-136) does for one
node: the sequence of method calls it makes in program order, and which
calls' results end up appended to `TR_weights` (`x`) and `critic_weights`
(`y`) at lines 135-136. -/
structure StageIResult where
  calls : List UpdateCall
  trSnapshot : UpdateCall
  criticSnapshot : UpdateCall
deriving DecidableEq, Repr

/-- Lines 120-136, one node: `r_applied = r_coop if args['common_reward']
else r[:,node]`, then the four-way dispatch on `agent_label[node]`.
`rcoop` is the team-average reward of lines 111-113 and `rown` the node's
own reward column `r[:,node]`. -/
def stageINode (common_reward : Bool) (label : Role) (rcoop rown : ℚ) :
    StageIResult :=
  let r_applied := if common_reward then rcoop else rown
  match label with
  | Role.Cooperative =>
      ⟨[UpdateCall.TR_update_local r_applied,
        UpdateCall.critic_update_local r_applied],
       UpdateCall.TR_update_local r_applied,
       UpdateCall.critic_update_local r_applied⟩
  | Role.Greedy =>
      ⟨[UpdateCall.TR_update_local rown, UpdateCall.critic_update_local rown],
       UpdateCall.TR_update_local rown, UpdateCall.critic_update_local rown⟩
  | Role.Malicious =>
      ⟨[UpdateCall.critic_update_local rown,
        UpdateCall.TR_update_compromised (-rcoop),
        UpdateCall.critic_update_compromised (-rcoop)],
       UpdateCall.TR_update_compromised (-rcoop),
       UpdateCall.critic_update_compromised (-rcoop)⟩
  | Role.Faulty =>
      ⟨[UpdateCall.get_TR_weights, UpdateCall.get_critic_weights],
       UpdateCall.get_TR_weights, UpdateCall.get_critic_weights⟩

/-- The whole Stage-I pass (`for node in range(n_agents)`), with
`n_agents = labels.length` and `r` node's reward column; `rcoop` is computed
from `r` at lines 111-113. -/
def stageIPass (labels : List Role) (common_reward : Bool) (r : ℕ → ℚ) :
    List StageIResult :=
  (List.range labels.length).map
    (fun node => stageINode common_reward (labels.getD node Role.Faulty)
      (rCoop labels r) (r node))

/-- The reward signals a Stage-I iteration hands to *local* (non-compromised,
non-read) TR/critic updates. -/
def localUpdateRewards (res : StageIResult) : List ℚ :=
  res.calls.filterMap (fun c =>
    match c with
    | UpdateCall.TR_update_local rw => some rw
    | UpdateCall.critic_update_local rw => some rw
    | _ => none)

/-- Concrete counterexample input for C1: roles
`[Cooperative, Cooperative, Greedy, Malicious]`, rewards `[2, 4, 7, 9]`,
`common_reward = true`; the team-average reward is `2/2 + 4/2 = 3`. -/
def c1Labels : List Role :=
  [Role.Cooperative, Role.Cooperative, Role.Greedy, Role.Malicious]

/-- The reward columns for the C1 counterexample. -/
def c1Rewards : ℕ → ℚ := fun node => ([2, 4, 7, 9] : List ℚ).getD node 0

/-- C1 counterexample: with `common_reward = true`, the Greedy node (index 2)
still hands its *own* reward `7` to its local TR/critic updates, and `7`
differs from the team-average reward `r_coop = 3`: the flag does not make
every role use `r_coop` in Stage I. -/
theorem common_reward_not_uniform :
    (7 : ℚ) ∈ localUpdateRewards
        ((stageIPass c1Labels true c1Rewards).getD 2
          ⟨[], UpdateCall.get_TR_weights, UpdateCall.get_TR_weights⟩)
      ∧ (7 : ℚ) ≠ rCoop c1Labels c1Rewards := by
  have hr : rCoop c1Labels c1Rewards = 3 := by
    unfold rCoop coopNodes nCoop c1Labels c1Rewards
    have hg : Role.Greedy ≠ Role.Cooperative := by decide
    have hm : Role.Malicious ≠ Role.Cooperative := by decide
    norm_num [List.range_succ, List.filter, List.foldl, List.count_cons,
      List.count_nil, hg, hm]
  constructor
  · unfold stageIPass
    rw [hr]
    simp [List.range_succ, stageINode, c1Labels, c1Rewards,
      localUpdateRewards]
  · rw [hr]; norm_num

/-- C1 amended: with `common_reward` set, only Cooperative nodes receive the
team-average reward in their Stage-I local updates; a Greedy node's local
updates and a Malicious node's local critic update still use the node's own
reward, the Malicious compromised updates target `-r_coop`, and a Faulty node
performs no update at all. -/
theorem common_reward_gates_cooperative_only (rcoop rown : ℚ) :
    localUpdateRewards (stageINode true Role.Cooperative rcoop rown)
        = [rcoop, rcoop]
      ∧ localUpdateRewards (stageINode true Role.Greedy rcoop rown)
        = [rown, rown]
      ∧ localUpdateRewards (stageINode true Role.Malicious rcoop rown)
        = [rown]
      ∧ (stageINode true Role.Malicious rcoop rown).calls
        = [UpdateCall.critic_update_local rown,
           UpdateCall.TR_update_compromised (-rcoop),
           UpdateCall.critic_update_compromised (-rcoop)]
      ∧ localUpdateRewards (stageINode true Role.Faulty rcoop rown) = [] := by
  refine ⟨rfl, rfl, rfl, rfl, rfl⟩

/-- C7: in every Stage-I pass (`common_reward` either way), a Malicious node
calls its local critic update on its own reward, produces its broadcast TR
and critic snapshots from the compromised updates targeting the negated
team-average reward `-r_coop`, and the snapshots appended to the weight lists
are those compromised results, not the local critic update's. -/
theorem malicious_broadcasts_compromised (common_reward : Bool)
    (rcoop rown : ℚ) :
    (stageINode common_reward Role.Malicious rcoop rown).calls
        = [UpdateCall.critic_update_local rown,
           UpdateCall.TR_update_compromised (-rcoop),
           UpdateCall.critic_update_compromised (-rcoop)]
      ∧ (stageINode common_reward Role.Malicious rcoop rown).trSnapshot
        = UpdateCall.TR_update_compromised (-rcoop)
      ∧ (stageINode common_reward Role.Malicious rcoop rown).criticSnapshot
        = UpdateCall.critic_update_compromised (-rcoop)
      ∧ ∀ rw : ℚ,
        (stageINode common_reward Role.Malicious rcoop rown).criticSnapshot
          ≠ UpdateCall.critic_update_local rw := by
  refine ⟨rfl, rfl, rfl, fun rw => by simp [stageINode]⟩

/-!
## Stage II — resilient consensus updates (lines 140-160)

The loop runs over the same cooperative generator as Stage I.  For node
`v` it builds `critic_weights_innodes = [critic_weights[i] for i in
in_nodes[v]]` (and likewise for TR) and feeds *only* those two lists to the
four consensus/team-update calls.  We record, per iteration, which node acts
and exactly which snapshot lists it consumes.  Weight lists are total maps
`ℕ → W` (the Python lists `critic_weights`/`TR_weights`, which Stage I filled
with one entry per agent).
-/

/-- One Stage-II iteration: the cooperative node that runs, and the snapshot
lists handed to `resilient_consensus_critic_hidden`,
`resilient_consensus_TR_hidden`, `resilient_consensus_critic`,
`resilient_consensus_TR` (lines 144-155). -/
structure ConsensusEvent (W : Type) where
  node : ℕ
  criticIn : List W
  trIn : List W
deriving DecidableEq, Repr

/-- Lines 140-160: `for node in (x for x in range(n_agents) if
agent_label[x] == 'Cooperative')`, gather the neighbor snapshots by indexing
the weight lists at `in_nodes[node]`, then run the consensus and team
updates on exactly those.  `n_agents = labels.length`. -/
def stageIIEvents (labels : List Role) (in_nodes : ℕ → List ℕ)
    (critic_weights TR_weights : ℕ → W) : List (ConsensusEvent W) :=
  (coopNodes labels).map
    (fun node =>
      ⟨node, (in_nodes node).map critic_weights,
       (in_nodes node).map TR_weights⟩)

/-- C6: every Stage-II iteration is run by a Cooperative node, and the
snapshot lists it consumes are exactly the entries of the weight lists at the
indices of `in_nodes[node]`, in that order; in particular every consumed
snapshot comes from some node in `in_nodes[node]`, never from outside it,
and no non-Cooperative node appears in the Stage-II pass. -/
theorem consensus_reads_only_in_nodes (W : Type) (labels : List Role)
    (in_nodes : ℕ → List ℕ) (critic_weights TR_weights : ℕ → W)
    (ev : ConsensusEvent W)
    (hev : ev ∈ stageIIEvents labels in_nodes critic_weights TR_weights) :
    labels.getD ev.node Role.Faulty = Role.Cooperative
      ∧ ev.criticIn = (in_nodes ev.node).map critic_weights
      ∧ ev.trIn = (in_nodes ev.node).map TR_weights
      ∧ (∀ w ∈ ev.criticIn, ∃ i ∈ in_nodes ev.node, w = critic_weights i)
      ∧ (∀ w ∈ ev.trIn, ∃ i ∈ in_nodes ev.node, w = TR_weights i) := by
  unfold stageIIEvents at hev
  obtain ⟨node, hnode, hmap⟩ := List.mem_map.mp hev
  have hcoop : labels.getD node Role.Faulty = Role.Cooperative := by
    unfold coopNodes at hnode
    have := List.of_mem_filter hnode
    exact of_decide_eq_true (by simpa using this)
  subst hmap
  refine ⟨hcoop, rfl, rfl, ?_, ?_⟩
  · intro w hw
    obtain ⟨i, hi, hwi⟩ := List.mem_map.mp hw
    exact ⟨i, hi, hwi.symm⟩
  · intro w hw
    obtain ⟨i, hi, hwi⟩ := List.mem_map.mp hw
    exact ⟨i, hi, hwi.symm⟩

/-- Witness for C6 at a concrete configuration: two cooperative nodes with
`in_nodes = [[1], [0]]` and integer snapshots. -/
theorem consensus_reads_only_in_nodes_witness :
    (⟨0, [11], [21]⟩ : ConsensusEvent ℤ) ∈
        stageIIEvents [Role.Cooperative, Role.Cooperative]
          (fun v => ([[1], [0]] : List (List ℕ)).getD v [])
          (fun i => ([10, 11] : List ℤ).getD i 0)
          (fun i => ([20, 21] : List ℤ).getD i 0)
      ∧ ([Role.Cooperative, Role.Cooperative].getD 0 Role.Faulty
          = Role.Cooperative) := by
  have h :
      (⟨0, [11], [21]⟩ : ConsensusEvent ℤ) ∈
        stageIIEvents [Role.Cooperative, Role.Cooperative]
          (fun v => ([[1], [0]] : List (List ℕ)).getD v [])
          (fun i => ([10, 11] : List ℤ).getD i 0)
          (fun i => ([20, 21] : List ℤ).getD i 0) := by
    unfold stageIIEvents coopNodes
    simp [List.range_succ]
  exact ⟨h, (consensus_reads_only_in_nodes ℤ _ _ _ _ _ h).1⟩

/-!
## Episode/step loop skeleton and the cycle boundary (lines 51-100)

`for t in range(n_episodes)` with `i = t % n_ep_fixed` (line 55) and
`while j < max_ep_len` (line 75) in which `j += 1` (line 82) precedes the
boundary test `if i == n_ep_fixed-1 and j == max_ep_len` (line 100).  Every
step emits a simulate-and-record event; the boundary additionally emits an
update event.  The trace is the sequence of these events in program order.
-/

/-- An event of the episode/step loop: a plain simulate-and-record step, or
the batched update block of lines 100-180, each stamped with the episode
index `t` and the post-increment step index `j`. -/
inductive Ev where
  | step (t j : ℕ)
  | update (t j : ℕ)
deriving DecidableEq, Repr

/-- One pass of the `while` body at episode `t`, after `j` was incremented to
the given value: record the step, then run the update block exactly when
`t % n_ep_fixed == n_ep_fixed - 1 && j == max_ep_len` (lines 55 and 100). -/
def stepEvents (n_ep_fixed max_ep_len t j : ℕ) : List Ev :=
  if t % n_ep_fixed = n_ep_fixed - 1 ∧ j = max_ep_len then
    [Ev.step t j, Ev.update t j]
  else
    [Ev.step t j]

/-- One episode: `j` runs through `1, …, max_ep_len` (line 75's guard with
line 82's increment). -/
def episodeTrace (n_ep_fixed max_ep_len t : ℕ) : List Ev :=
  (List.range max_ep_len).flatMap
    (fun j0 => stepEvents n_ep_fixed max_ep_len t (j0 + 1))

/-- The whole run: `for t in range(n_episodes)` (line 51). -/
def trainTrace (n_ep_fixed max_ep_len n_episodes : ℕ) : List Ev :=
  (List.range n_episodes).flatMap (episodeTrace n_ep_fixed max_ep_len)

/-- Recognizer for update events. -/
def isUpdate : Ev → Bool
  | Ev.update _ _ => true
  | Ev.step _ _ => false

lemma flatMap_singleton_at_end (x : Ev) (m : ℕ) (hm : 1 ≤ m) :
    (List.range m).flatMap (fun j0 => if j0 + 1 = m then [x] else [])
      = [x] := by
  obtain ⟨k, rfl⟩ : ∃ k, m = k + 1 := ⟨m - 1, by omega⟩
  rw [List.range_succ, List.flatMap_append]
  have h1 : (List.range k).flatMap
      (fun j0 => if j0 + 1 = k + 1 then [x] else []) = [] := by
    rw [List.flatMap_eq_nil_iff]
    intro j0 hj0
    have : j0 < k := List.mem_range.mp hj0
    rw [if_neg (by omega)]
  have h2 : ([k] : List ℕ).flatMap
      (fun j0 => if j0 + 1 = k + 1 then [x] else []) = [x] := by
    simp
  rw [h1, h2, List.nil_append]

lemma flatMap_if_eq_filter_map (l : List ℕ) (p : ℕ → Bool) (g : ℕ → Ev) :
    l.flatMap (fun t => if p t then [g t] else []) = (l.filter p).map g := by
  induction l with
  | nil => rfl
  | cons x xs ih =>
      by_cases h : p x
      · simp [List.flatMap_cons, List.filter_cons, h, ih]
      · simp [List.flatMap_cons, List.filter_cons, h, ih]

lemma episodeTrace_filter (n_ep_fixed max_ep_len t : ℕ)
    (hmel : 1 ≤ max_ep_len) :
    (episodeTrace n_ep_fixed max_ep_len t).filter isUpdate
      = if t % n_ep_fixed = n_ep_fixed - 1 then [Ev.update t max_ep_len]
        else [] := by
  unfold episodeTrace
  rw [List.filter_flatMap]
  by_cases hc : t % n_ep_fixed = n_ep_fixed - 1
  · rw [if_pos hc]
    have hstep : ∀ j0 : ℕ,
        (stepEvents n_ep_fixed max_ep_len t (j0 + 1)).filter isUpdate
          = if j0 + 1 = max_ep_len then [Ev.update t max_ep_len] else [] := by
      intro j0
      unfold stepEvents
      by_cases hj : j0 + 1 = max_ep_len
      · rw [if_pos ⟨hc, hj⟩, if_pos hj, hj]
        rfl
      · rw [if_neg (fun hand => hj hand.2), if_neg hj]
        rfl
    calc (List.range max_ep_len).flatMap
          (fun j0 => (stepEvents n_ep_fixed max_ep_len t (j0 + 1)).filter
            isUpdate)
        = (List.range max_ep_len).flatMap
          (fun j0 => if j0 + 1 = max_ep_len then [Ev.update t max_ep_len]
            else []) := by
          apply List.flatMap_congr
          intro j0 _
          exact hstep j0
      _ = [Ev.update t max_ep_len] :=
          flatMap_singleton_at_end _ max_ep_len hmel
  · rw [if_neg hc, List.flatMap_eq_nil_iff]
    intro j0 _
    unfold stepEvents
    rw [if_neg (fun hand => hc hand.1)]
    rfl

/-- C3: for a positive cycle length and episode length, the update events of
a whole run are exactly one per episode whose index `t` satisfies
`t % n_ep_fixed = n_ep_fixed - 1`, stamped with step index `max_ep_len`, in
episode order; equivalently, an update fires at `(t, j)` iff `t < n_episodes`,
`t % n_ep_fixed = n_ep_fixed - 1` and `j = max_ep_len` — every other step is
a plain simulate-and-record step. -/
theorem cycle_boundary_characterization (n_ep_fixed max_ep_len n_episodes : ℕ)
    (hnef : 1 ≤ n_ep_fixed) (hmel : 1 ≤ max_ep_len) :
    ((trainTrace n_ep_fixed max_ep_len n_episodes).filter isUpdate
      = ((List.range n_episodes).filter
          (fun t => t % n_ep_fixed == n_ep_fixed - 1)).map
        (fun t => Ev.update t max_ep_len))
    ∧ ∀ t j : ℕ,
      (Ev.update t j ∈ trainTrace n_ep_fixed max_ep_len n_episodes
        ↔ t < n_episodes ∧ t % n_ep_fixed = n_ep_fixed - 1 ∧ j = max_ep_len) := by
  have hfilter :
      (trainTrace n_ep_fixed max_ep_len n_episodes).filter isUpdate
        = ((List.range n_episodes).filter
            (fun t => t % n_ep_fixed == n_ep_fixed - 1)).map
          (fun t => Ev.update t max_ep_len) := by
    unfold trainTrace
    rw [List.filter_flatMap]
    calc (List.range n_episodes).flatMap
          (fun t => (episodeTrace n_ep_fixed max_ep_len t).filter isUpdate)
        = (List.range n_episodes).flatMap
          (fun t => if (t % n_ep_fixed == n_ep_fixed - 1 : Bool)
            then [Ev.update t max_ep_len] else []) := by
          apply List.flatMap_congr
          intro t _
          rw [episodeTrace_filter n_ep_fixed max_ep_len t hmel]
          by_cases hc : t % n_ep_fixed = n_ep_fixed - 1
          · rw [if_pos hc, if_pos (by simpa using hc)]
          · rw [if_neg hc, if_neg (by simpa using hc)]
      _ = _ := flatMap_if_eq_filter_map _ _ _
  refine ⟨hfilter, ?_⟩
  intro t j
  constructor
  · intro hmem
    have hfil : Ev.update t j ∈
        (trainTrace n_ep_fixed max_ep_len n_episodes).filter isUpdate :=
      List.mem_filter.mpr ⟨hmem, rfl⟩
    rw [hfilter] at hfil
    obtain ⟨t', ht', heq⟩ := List.mem_map.mp hfil
    have ht'mem := List.mem_filter.mp ht'
    have ht'' : t' = t := by injection heq
    have hj' : max_ep_len = j := by
      injection heq with h1 h2
    subst ht''
    refine ⟨List.mem_range.mp ht'mem.1, by simpa using ht'mem.2, hj'.symm⟩
  · rintro ⟨ht, hc, hj⟩
    rw [hj]
    have hmem : Ev.update t max_ep_len ∈
        (trainTrace n_ep_fixed max_ep_len n_episodes).filter isUpdate := by
      rw [hfilter]
      exact List.mem_map.mpr ⟨t, List.mem_filter.mpr
        ⟨List.mem_range.mpr ht, by simpa using hc⟩, rfl⟩
    exact (List.mem_filter.mp hmem).1

/-- Witness for C3 at the spec's concrete instance `n_ep_fixed = 3`,
`max_ep_len = 5`, nine episodes: updates fire exactly at step 5 of episodes
2, 5 and 8. -/
theorem cycle_boundary_witness :
    (trainTrace 3 5 9).filter isUpdate
      = [Ev.update 2 5, Ev.update 5 5, Ev.update 8 5] := by
  have h := (cycle_boundary_characterization 3 5 9 (by decide) (by decide)).1
  rw [h]
  decide

/-!
## Ordering of the update cycle (lines 115-168)

`for n in range(n_epochs):` runs the full Stage-I loop (`for node in
range(n_agents)`, lines 120-136) and then the full Stage-II loop (cooperative
nodes only, lines 140-160); the actor-update loop (lines 164-168) follows the
epoch loop.  We embed this as the sequence of per-node phase events in
program order and prove the barrier properties positionally.
-/

/-- A phase event of the update cycle: node `v`'s Stage-I iteration in epoch
`e`, node `v`'s Stage-II iteration in epoch `e`, or node `v`'s actor
update. -/
inductive UEv where
  | stageI (epoch node : ℕ)
  | stageII (epoch node : ℕ)
  | actor (node : ℕ)
deriving DecidableEq, Repr

/-- One epoch of the loop at line 115: all of Stage I (every node,
lines 120-136), then all of Stage II (cooperative nodes, lines 140-160).
`n_agents = labels.length`. -/
def epochTrace (labels : List Role) (e : ℕ) : List UEv :=
  (List.range labels.length).map (UEv.stageI e)
    ++ (coopNodes labels).map (UEv.stageII e)

/-- The whole update cycle: `n_epochs` sequential epochs followed by one
actor-update pass over all nodes (lines 115-168). -/
def cycleTrace (labels : List Role) (n_epochs : ℕ) : List UEv :=
  (List.range n_epochs).flatMap (epochTrace labels)
    ++ (List.range labels.length).map UEv.actor

/-- In a list that splits as a concatenation, any occurrence of a value
absent from the right part precedes any occurrence of a value absent from
the left part. -/
lemma index_lt_of_append {α : Type} (l L R : List α) (hl : l = L ++ R)
    (a b : α) (haR : a ∉ R) (hbL : b ∉ L) (i k : ℕ)
    (hi : i < l.length) (hk : k < l.length)
    (hia : l.get ⟨i, hi⟩ = a) (hkb : l.get ⟨k, hk⟩ = b) :
    i < k := by
  subst hl
  have hlen : i < L.length + R.length ∧ k < L.length + R.length := by
    rw [List.length_append] at hi hk
    exact ⟨hi, hk⟩
  have hiL : i < L.length := by
    by_contra hge
    push_neg at hge
    have haRmem : a ∈ R := by
      rw [← hia, List.get_eq_getElem, List.getElem_append i hi,
        dif_neg (by omega)]
      exact List.getElem_mem _
    exact haR haRmem
  have hkL : L.length ≤ k := by
    by_contra hlt
    push_neg at hlt
    have hbLmem : b ∈ L := by
      rw [← hkb, List.get_eq_getElem, List.getElem_append k hk,
        dif_pos hlt]
      exact List.getElem_mem _
    exact hbL hbLmem
  omega

/-- Stage-I events in `epochTrace labels e'` carry epoch stamp `e'`. -/
lemma epochTrace_stageI_epoch (labels : List Role) (e' e v : ℕ)
    (h : UEv.stageI e v ∈ epochTrace labels e') : e = e' := by
  unfold epochTrace at h
  rcases List.mem_append.mp h with h1 | h2
  · obtain ⟨x, _, hx⟩ := List.mem_map.mp h1
    injection hx with h' _
    exact h'.symm
  · obtain ⟨x, _, hx⟩ := List.mem_map.mp h2
    exact absurd hx (by intro hc; cases hc)

/-- Stage-II events in `epochTrace labels e'` carry epoch stamp `e'`. -/
lemma epochTrace_stageII_epoch (labels : List Role) (e' e v : ℕ)
    (h : UEv.stageII e v ∈ epochTrace labels e') : e = e' := by
  unfold epochTrace at h
  rcases List.mem_append.mp h with h1 | h2
  · obtain ⟨x, _, hx⟩ := List.mem_map.mp h1
    exact absurd hx (by intro hc; cases hc)
  · obtain ⟨x, _, hx⟩ := List.mem_map.mp h2
    injection hx with h' _
    exact h'.symm

/-- Splitting the cycle trace around epoch `e`: everything strictly before
epoch `e`'s Stage II is earlier epochs plus epoch `e`'s Stage I; everything
after is epoch `e`'s Stage II, later epochs, and the actor pass. -/
lemma cycleTrace_split (labels : List Role) (n_epochs e : ℕ)
    (he : e < n_epochs) :
    cycleTrace labels n_epochs
      = ((List.range e).flatMap (epochTrace labels)
          ++ (List.range labels.length).map (UEv.stageI e))
        ++ ((coopNodes labels).map (UEv.stageII e)
          ++ ((List.range (n_epochs - e - 1)).map (fun i => e + 1 + i)).flatMap
              (epochTrace labels)
          ++ (List.range labels.length).map UEv.actor) := by
  unfold cycleTrace
  have hsplit : List.range n_epochs
      = List.range e ++ [e]
        ++ (List.range (n_epochs - e - 1)).map (fun i => e + 1 + i) := by
    have h1 : List.range n_epochs
        = List.range (e + 1)
          ++ (List.range (n_epochs - e - 1)).map (fun i => e + 1 + i) := by
      rw [← List.range_add]
      congr 1
      omega
    rw [h1, List.range_succ]
  rw [hsplit, List.flatMap_append, List.flatMap_append,
    List.flatMap_singleton]
  unfold epochTrace
  simp only [List.append_assoc]

/-- C9: in the update cycle's event order, (a) every node's Stage-I event of
epoch `e` occurs, every cooperative node's Stage-II event of epoch `e`
occurs, and every node's actor event occurs; (b) within an epoch, every
Stage-I event precedes every Stage-II event of that epoch (Stage I completes
for all nodes before any consensus starts); and (c) every actor-update event
comes after every Stage-I and every Stage-II event of every epoch. -/
theorem cycle_phase_barriers (labels : List Role) (n_epochs e u v : ℕ)
    (he : e < n_epochs) (hu : u < labels.length) :
    (UEv.stageI e u ∈ cycleTrace labels n_epochs
      ∧ (v ∈ coopNodes labels → UEv.stageII e v ∈ cycleTrace labels n_epochs)
      ∧ UEv.actor u ∈ cycleTrace labels n_epochs)
    ∧ (∀ (i k : ℕ) (hi : i < (cycleTrace labels n_epochs).length)
        (hk : k < (cycleTrace labels n_epochs).length),
        (cycleTrace labels n_epochs).get ⟨i, hi⟩ = UEv.stageI e u →
        (cycleTrace labels n_epochs).get ⟨k, hk⟩ = UEv.stageII e v →
        i < k)
    ∧ (∀ (i k : ℕ) (hi : i < (cycleTrace labels n_epochs).length)
        (hk : k < (cycleTrace labels n_epochs).length),
        ((cycleTrace labels n_epochs).get ⟨i, hi⟩ = UEv.stageI e u
          ∨ (cycleTrace labels n_epochs).get ⟨i, hi⟩ = UEv.stageII e v) →
        (cycleTrace labels n_epochs).get ⟨k, hk⟩ = UEv.actor u →
        i < k) := by
  refine ⟨⟨?_, ?_, ?_⟩, ?_, ?_⟩
  · unfold cycleTrace
    refine List.mem_append.mpr (Or.inl ?_)
    refine List.mem_flatMap.mpr ⟨e, List.mem_range.mpr he, ?_⟩
    unfold epochTrace
    exact List.mem_append.mpr (Or.inl
      (List.mem_map.mpr ⟨u, List.mem_range.mpr hu, rfl⟩))
  · intro hv
    unfold cycleTrace
    refine List.mem_append.mpr (Or.inl ?_)
    refine List.mem_flatMap.mpr ⟨e, List.mem_range.mpr he, ?_⟩
    unfold epochTrace
    exact List.mem_append.mpr (Or.inr (List.mem_map.mpr ⟨v, hv, rfl⟩))
  · unfold cycleTrace
    exact List.mem_append.mpr (Or.inr
      (List.mem_map.mpr ⟨u, List.mem_range.mpr hu, rfl⟩))
  · intro i k hi hk hia hkb
    have hsplit := cycleTrace_split labels n_epochs e he
    have haR : UEv.stageI e u ∉
        ((coopNodes labels).map (UEv.stageII e)
          ++ ((List.range (n_epochs - e - 1)).map (fun i => e + 1 + i)).flatMap
              (epochTrace labels)
          ++ (List.range labels.length).map UEv.actor) := by
      intro hmem
      rcases List.mem_append.mp hmem with hmem' | h3
      · rcases List.mem_append.mp hmem' with h1 | h2
        · obtain ⟨x, _, hx⟩ := List.mem_map.mp h1
          cases hx
        · obtain ⟨e', he', hin⟩ := List.mem_flatMap.mp h2
          obtain ⟨i0, _, hei⟩ := List.mem_map.mp he'
          have := epochTrace_stageI_epoch labels e' e u hin
          omega
      · obtain ⟨x, _, hx⟩ := List.mem_map.mp h3
        cases hx
    have hbL : UEv.stageII e v ∉
        ((List.range e).flatMap (epochTrace labels)
          ++ (List.range labels.length).map (UEv.stageI e)) := by
      intro hmem
      rcases List.mem_append.mp hmem with h1 | h2
      · obtain ⟨e', he', hin⟩ := List.mem_flatMap.mp h1
        have := epochTrace_stageII_epoch labels e' e v hin
        have := List.mem_range.mp he'
        omega
      · obtain ⟨x, _, hx⟩ := List.mem_map.mp h2
        cases hx
    exact index_lt_of_append _ _ _ hsplit _ _ haR hbL i k hi hk hia hkb
  · intro i k hi hk hia hkb
    have haR : ∀ x, (x = UEv.stageI e u ∨ x = UEv.stageII e v) →
        x ∉ (List.range labels.length).map UEv.actor := by
      intro x hx hmem
      obtain ⟨y, _, hy⟩ := List.mem_map.mp hmem
      rcases hx with h | h <;> subst h <;> cases hy
    have hbL : UEv.actor u ∉
        (List.range n_epochs).flatMap (epochTrace labels) := by
      intro hmem
      obtain ⟨e', _, hin⟩ := List.mem_flatMap.mp hmem
      unfold epochTrace at hin
      rcases List.mem_append.mp hin with h1 | h2
      · obtain ⟨x, _, hx⟩ := List.mem_map.mp h1
        cases hx
      · obtain ⟨x, _, hx⟩ := List.mem_map.mp h2
        cases hx
    have hsplit : cycleTrace labels n_epochs
        = (List.range n_epochs).flatMap (epochTrace labels)
          ++ (List.range labels.length).map UEv.actor := rfl
    rcases hia with h | h
    · exact index_lt_of_append _ _ _ hsplit _ _
        (haR _ (Or.inl rfl)) hbL i k hi hk h hkb
    · exact index_lt_of_append _ _ _ hsplit _ _
        (haR _ (Or.inr rfl)) hbL i k hi hk h hkb

/-- Witness for C9: one cooperative agent, one epoch.  The trace is
`[stageI 0 0, stageII 0 0, actor 0]`; the membership facts and the ordering
at the concrete indices 0 < 1 < 2 follow from the theorem. -/
theorem cycle_phase_barriers_witness :
    UEv.stageI 0 0 ∈ cycleTrace [Role.Cooperative] 1
      ∧ UEv.stageII 0 0 ∈ cycleTrace [Role.Cooperative] 1
      ∧ UEv.actor 0 ∈ cycleTrace [Role.Cooperative] 1 := by
  have h := cycle_phase_barriers [Role.Cooperative] 1 0 0 0
    (by decide) (by decide)
  exact ⟨h.1.1, h.1.2.1 (by decide), h.1.2.2⟩

/-!
## Actor updates (lines 164-168)

`obs[-k:]`, `nobs[-k:]`, `sa[-k:]`, `a[-k:,node]` with
`k = max_ep_len*n_ep_fixed` for Cooperative nodes, and `obs[-k:]`,
`nobs[-k:]`, `r[-k:,node]`, `a[-k:,node]` otherwise.  The time axis is a
Lean list; 2-d `[time, node]` tensors are lists of rows and the column read
is a `map` of a row lookup.
-/

/-- The Python slice `l[-k:]`: the last `k` entries, or the whole list when
`k = 0` (Python's `l[-0:]` is `l[0:]`). -/
def pyLastSlice (k : ℕ) (l : List α) : List α :=
  if k = 0 then l else l.drop (l.length - k)

/-- The column read `m[:, node]` of a `[time, node]` tensor. -/
def column (node : ℕ) (m : List (List α)) (d : α) : List α :=
  m.map (fun row => row.getD node d)

/-- The four positional arguments of one `actor_update` call. -/
structure ActorCall (α : Type) where
  arg1 : List α
  arg2 : List α
  arg3 : List α
  arg4 : List α
deriving DecidableEq, Repr

/-- Lines 164-168: the actor-update pass.  `n_agents = labels.length`;
`obs`, `nobs`, `sa` are time-major tensors and `r`, `a` are `[time, node]`
tensors; `k = max_ep_len * n_ep_fixed`; `d` is the (never claim-relevant)
default for out-of-range column reads. -/
def actorCalls (labels : List Role) (k : ℕ) (obs nobs sa : List α)
    (r a : List (List α)) (d : α) : List (ActorCall α) :=
  (List.range labels.length).map (fun node =>
    if labels.getD node Role.Faulty == Role.Cooperative then
      ⟨pyLastSlice k obs, pyLastSlice k nobs, pyLastSlice k sa,
       column node (pyLastSlice k a) d⟩
    else
      ⟨pyLastSlice k obs, pyLastSlice k nobs,
       column node (pyLastSlice k r) d,
       column node (pyLastSlice k a) d⟩)

lemma pyLastSlice_suffix (k : ℕ) (l : List α) : pyLastSlice k l <:+ l := by
  unfold pyLastSlice
  by_cases h : k = 0
  · rw [if_pos h]
  · rw [if_neg h]
    exact List.drop_suffix _ l

lemma pyLastSlice_length_le (k : ℕ) (l : List α) (hk : 1 ≤ k) :
    (pyLastSlice k l).length ≤ k := by
  unfold pyLastSlice
  rw [if_neg (by omega)]
  rw [List.length_drop]
  omega

lemma column_pyLastSlice_suffix (node : ℕ) (k : ℕ) (m : List (List α))
    (d : α) : column node (pyLastSlice k m) d <:+ column node m d := by
  obtain ⟨p, hp⟩ := pyLastSlice_suffix k m
  refine ⟨column node p d, ?_⟩
  unfold column
  rw [← List.map_append, hp]

lemma column_length (node : ℕ) (m : List (List α)) (d : α) :
    (column node m d).length = m.length := List.length_map _ _

/-- C8 counterexample: with roles `[Cooperative, Greedy]` and `k = 2`, the
Greedy node's `actor_update` receives as third argument its own reward
column `r[-2:, 1] = [5, 6]`, not the state-action slice `sa[-2:] = [10, 20]`:
the call contract is not uniform in the state-action argument. -/
theorem actor_call_not_uniform :
    ((actorCalls [Role.Cooperative, Role.Greedy] 2
        ([8, 9] : List ℤ) [18, 19] [10, 20] [[1, 5], [2, 6]] [[0, 3], [0, 4]]
        0).getD 1 ⟨[], [], [], []⟩).arg3
      = [5, 6]
    ∧ pyLastSlice 2 ([10, 20] : List ℤ) = [10, 20]
    ∧ ([5, 6] : List ℤ) ≠ [10, 20] := by
  refine ⟨?_, by decide, by decide⟩
  unfold actorCalls pyLastSlice column
  decide

/-- C8 amended: every `actor_update` call consumes only the most recent
`k = max_ep_len * n_ep_fixed` entries — each argument is a suffix of its
source tensor (or of its column) of length at most `k` — and the arguments
are, positionally, the observation slice, the next-observation slice, the
role-dependent error-signal source (state-action slice for Cooperative nodes,
own-reward column slice otherwise), and the node's own action column
slice. -/
theorem actor_consumes_recent_slice (α : Type) (labels : List Role) (k : ℕ)
    (obs nobs sa : List α) (r a : List (List α)) (d : α) (node : ℕ)
    (hnode : node < labels.length) (hk : 1 ≤ k) :
    ∃ c : ActorCall α,
      (actorCalls labels k obs nobs sa r a d).getD node ⟨[], [], [], []⟩ = c
      ∧ c.arg1 = pyLastSlice k obs ∧ c.arg2 = pyLastSlice k nobs
      ∧ c.arg4 = column node (pyLastSlice k a) d
      ∧ (labels.getD node Role.Faulty = Role.Cooperative →
          c.arg3 = pyLastSlice k sa)
      ∧ (labels.getD node Role.Faulty ≠ Role.Cooperative →
          c.arg3 = column node (pyLastSlice k r) d)
      ∧ c.arg1 <:+ obs ∧ c.arg1.length ≤ k
      ∧ c.arg2 <:+ nobs ∧ c.arg2.length ≤ k
      ∧ (c.arg3 <:+ sa ∨ c.arg3 <:+ column node r d) ∧ c.arg3.length ≤ k
      ∧ c.arg4 <:+ column node a d ∧ c.arg4.length ≤ k := by
  have hget : (actorCalls labels k obs nobs sa r a d).getD node ⟨[], [], [], []⟩
      = (if labels.getD node Role.Faulty == Role.Cooperative then
          (⟨pyLastSlice k obs, pyLastSlice k nobs, pyLastSlice k sa,
            column node (pyLastSlice k a) d⟩ : ActorCall α)
        else
          ⟨pyLastSlice k obs, pyLastSlice k nobs,
           column node (pyLastSlice k r) d,
           column node (pyLastSlice k a) d⟩) := by
    unfold actorCalls
    rw [List.getD_eq_getElem?_getD, List.getElem?_map]
    rw [List.getElem?_range hnode]
    rfl
  have hcol_len : ∀ (m : List (List α)),
      (column node (pyLastSlice k m) d).length ≤ k := by
    intro m
    rw [column_length]
    exact pyLastSlice_length_le k m hk
  by_cases hcoop : labels.getD node Role.Faulty = Role.Cooperative
  · refine ⟨_, hget, ?_⟩
    rw [if_pos (by simpa using hcoop)]
    exact ⟨rfl, rfl, rfl, fun _ => rfl, fun hc => absurd hcoop hc,
      pyLastSlice_suffix k obs, pyLastSlice_length_le k obs hk,
      pyLastSlice_suffix k nobs, pyLastSlice_length_le k nobs hk,
      Or.inl (pyLastSlice_suffix k sa), pyLastSlice_length_le k sa hk,
      column_pyLastSlice_suffix node k a d, hcol_len a⟩
  · refine ⟨_, hget, ?_⟩
    rw [if_neg (by simpa using hcoop)]
    exact ⟨rfl, rfl, rfl, fun hc => absurd hc hcoop, fun _ => rfl,
      pyLastSlice_suffix k obs, pyLastSlice_length_le k obs hk,
      pyLastSlice_suffix k nobs, pyLastSlice_length_le k nobs hk,
      Or.inr (column_pyLastSlice_suffix node k r d), hcol_len r,
      column_pyLastSlice_suffix node k a d, hcol_len a⟩

/-- Witness for C8 at a concrete input: the Cooperative node 0 of the
counterexample configuration receives the state-action slice as its third
argument. -/
theorem actor_consumes_recent_slice_witness :
    ∃ c : ActorCall ℤ,
      (actorCalls [Role.Cooperative, Role.Greedy] 2
        ([8, 9] : List ℤ) [18, 19] [10, 20] [[1, 5], [2, 6]] [[0, 3], [0, 4]]
        0).getD 0 ⟨[], [], [], []⟩ = c
      ∧ c.arg1 = pyLastSlice 2 ([8, 9] : List ℤ)
      ∧ c.arg2 = pyLastSlice 2 ([18, 19] : List ℤ)
      ∧ c.arg4 = column 0 (pyLastSlice 2 [[0, 3], [0, 4]]) (0 : ℤ)
      ∧ c.arg3.length ≤ 2 := by
  obtain ⟨c, hc, h1, h2, h4, hcoop, hncoop, s1, l1, s2, l2, s3, l3, s4, l4⟩ :=
    actor_consumes_recent_slice ℤ [Role.Cooperative, Role.Greedy] 2
      [8, 9] [18, 19] [10, 20] [[1, 5], [2, 6]] [[0, 3], [0, 4]] 0 0
      (by decide) (by decide)
  exact ⟨c, hc, h1, h2, h4, l3⟩

/-!
## Initialization (lines 30-47) and the first transition append (lines 86-91)

Lines 30-47 read configuration values and bind the experience-list names.
Python semantics that matter here: `if exp_buffer:` tests *truthiness* (a
`None` or empty buffer takes the `else` branch), `exp_buffer[k]` raises
`IndexError` when `k` is out of range, and a function-local name that was
assigned in some branch but not on the executed path raises an unbound-name
error (`UnboundLocalError`) when first read.  The restore branch (lines
40-45) binds `observation`/`nobservation`; the append code (lines 90-91)
reads `observations`/`nobservations`, which only the `else` branch (line 47)
binds.
-/

/-- The Python errors reachable in the embedded fragment. -/
inductive PyErr where
  | indexError
  | zeroDivisionError
  | unboundLocalError (name : String)
deriving DecidableEq, Repr

/-- The configuration dictionary entries `train_RPBCAC` reads (spec §6). -/
structure Args where
  n_states : ℕ
  agent_label : List Role
  gamma : ℚ
  in_nodes : List (List ℕ)
  max_ep_len : ℕ
  n_episodes : ℕ
  n_ep_fixed : ℕ
  n_epochs : ℕ
  batch_size : ℕ
  buffer_size : ℕ
  common_reward : Bool

/-- Lines 39-47: which experience-list names get bound, depending on the
truthiness of `exp_buffer`; a truthy buffer shorter than 6 entries fails with
`IndexError` at the subscripts of lines 40-45. -/
def initBufferNames (exp_buffer : Option (List β)) :
    Except PyErr (List String) :=
  match exp_buffer with
  | some l =>
      if l.isEmpty then
        Except.ok ["states", "nstates", "actions", "rewards",
          "observations", "nobservations"]
      else if 6 ≤ l.length then
        Except.ok ["states", "nstates", "actions", "rewards",
          "observation", "nobservation"]
      else
        Except.error PyErr.indexError
  | none =>
      Except.ok ["states", "nstates", "actions", "rewards",
        "observations", "nobservations"]

/-- Lines 30-47 in full: the local bindings made before the training loop.
No configuration value is validated — the reads at lines 31-37 and the count
at line 33 always succeed; the only fallible step is the `exp_buffer`
restore. -/
def initRPBCAC (n_agents : ℕ) (args : Args)
    (exp_buffer : Option (List β)) : Except PyErr (ℕ × List String) := do
  let n_coop := args.agent_label.count Role.Cooperative
  let bufNames ← initBufferNames exp_buffer
  Except.ok (n_coop,
    ["paths", "n_agents", "n_states", "observation_dim", "n_coop", "gamma",
     "in_nodes", "max_ep_len", "n_episodes", "n_ep_fixed", "n_epochs",
     "batch_size", "buffer_size"] ++ bufNames)

/-- Names assigned inside the episode loop before the first append block
(lines 52-82: loop locals, `state`, `observation` at line 61, `nstate`,
`reward`, `nobservation` at lines 79-80). -/
def episodeLocalNames : List String :=
  ["j", "ep_returns", "est_returns", "mean_true_returns",
   "mean_true_returns_adv", "action", "actor_loss", "critic_loss", "TR_loss",
   "i", "state", "observation", "nstate", "reward", "nobservation"]

/-- Lines 86-91: the six `append` calls of the first recorded transition, in
program order; the first list name that is not bound raises an unbound-name
error. -/
def appendBlock (bound : List String) : Except PyErr Unit :=
  match (["states", "nstates", "actions", "rewards", "observations",
      "nobservations"]).find? (fun nm => !bound.contains nm) with
  | some nm => Except.error (PyErr.unboundLocalError nm)
  | none => Except.ok ()

/-- Line 55 at the first episode (`t = 0`): `i = t % n_ep_fixed` — Python
`%` raises `ZeroDivisionError` when `n_ep_fixed = 0`. -/
def episodeIndexMod (t n_ep_fixed : ℕ) : Except PyErr ℕ :=
  if n_ep_fixed = 0 then Except.error PyErr.zeroDivisionError
  else Except.ok (t % n_ep_fixed)

/-- Lines 65-71: `for node in range(n_agents): if args['agent_label'][node]
== 'Cooperative': …`.  The subscript raises `IndexError` at the first node
index not below `len(agent_label)`, i.e. exactly when
`n_agents > len(agent_label)`.  The per-node `agents[node]`/`env` calls in
this loop body are external collaborators (spec §1, §6: `agents` is a list
of `n_agents` agent objects with total methods) and are not modelled. -/
def estReturnsLabelReads (n_agents : ℕ) (labels : List Role) :
    Except PyErr Unit :=
  if n_agents ≤ labels.length then Except.ok ()
  else Except.error PyErr.indexError

/-- The run prefix that decides C10: initialization (lines 30-47), then the
first episode up to and including the first transition append (lines 51-91),
with its configuration-dependent error paths in program order: the
`exp_buffer` restore subscripts (lines 40-45), the modulo at line 55, the
`agent_label` subscripts of the est-returns loop (lines 65-66), and the
name-resolution of the six appends (lines 86-91).  Scope: this models the
prefix *through the first append*, which the `while` loop at line 75 reaches
only when `max_ep_len ≥ 1`; degenerate no-step runs (`max_ep_len = 0`) never
execute an append and are outside this definition (the theorems below
therefore assume `1 ≤ max_ep_len`).  `env`/`agents` method calls are
external black boxes assumed total. -/
def runToFirstAppend (n_agents : ℕ) (args : Args)
    (exp_buffer : Option (List β)) : Except PyErr Unit := do
  let (_, bound) ← initRPBCAC n_agents args exp_buffer
  let _ ← episodeIndexMod 0 args.n_ep_fixed
  let _ ← estReturnsLabelReads n_agents args.agent_label
  appendBlock (bound ++ episodeLocalNames)

/-- The spec's three configuration-error conditions (§7): some cooperative
node's neighbor set no larger than `2f`; `agent_label` length differing from
`n_agents`; no Cooperative label although `common_reward` (or team-return
normalization) needs a nonempty Cooperative set. -/
def configViolations (n_agents : ℕ) (args : Args) (f : ℕ) : Prop :=
  (∃ v ∈ coopNodes args.agent_label, (args.in_nodes.getD v []).length ≤ 2 * f)
    ∨ args.agent_label.length ≠ n_agents
    ∨ (args.common_reward = true ∧ args.agent_label.count Role.Cooperative = 0)

/-- A deliberately misconfigured concrete `args`: one Greedy agent declared
while `n_agents = 2`, an empty neighbor list for node 0, no Cooperative
agent although `common_reward` is set. -/
def badArgs : Args :=
  ⟨1, [Role.Greedy], 9 / 10, [[]], 5, 10, 3, 1, 10, 100, true⟩

/-- C2 counterexample: `badArgs` violates all three configuration conditions
(with declared tolerance `f = 1`), yet initialization (lines 30-47) completes
without raising, so training is entered — `train_RPBCAC` contains no
fail-fast configuration check. -/
theorem config_errors_not_fatal :
    configViolations 2 badArgs 1
      ∧ (initRPBCAC 2 badArgs (none : Option (List Unit))).isOk = true := by
  constructor
  · refine Or.inr (Or.inl ?_)
    unfold badArgs
    decide
  · rfl

/-- C2 amended: `train_RPBCAC` performs no configuration validation at all —
for every `n_agents`, every configuration dictionary and no passed-in
experience buffer, the initialization of lines 30-47 succeeds, and training
starts; the spec's three configuration errors are not detected there. -/
theorem init_never_validates (n_agents : ℕ) (args : Args) :
    (initRPBCAC n_agents args (none : Option (List Unit))).isOk = true := rfl

/-- A well-formed configuration: two Cooperative agents (so
`agent_label` has length `n_agents = 2`), neighbor lists `[[1], [0]]`,
`max_ep_len = 5`, `n_ep_fixed = 3`. -/
def goodArgs : Args :=
  ⟨1, [Role.Cooperative, Role.Cooperative], 9 / 10, [[1], [0]], 5, 10, 3, 1,
   10, 100, false⟩

/-- C10 counterexample: `exp_buffer = []` is not `None`, yet it is falsy, so
line 39 takes the `else` branch, `observations`/`nobservations` are bound,
and — in a well-formed configuration that reaches the append — the first
transition append succeeds: the unbound-name failure does not occur for
*every* non-`None` buffer. -/
theorem exp_buffer_empty_list_ok :
    (some ([] : List Unit) ≠ none)
      ∧ runToFirstAppend 2 goodArgs (some ([] : List Unit))
        = Except.ok () := by
  exact ⟨Option.some_ne_none _, rfl⟩

/-- C10 amended: for every *truthy* (non-empty) `exp_buffer`, in any run that
performs at least one step (`1 ≤ max_ep_len`), resuming never succeeds — the
run prefix always fails.  Precisely: with one to five entries the restore
itself (lines 40-45) raises `IndexError` whatever the configuration; with at
least six entries, if the configuration reaches the first append
(`1 ≤ n_ep_fixed` so line 55 does not divide by zero, and
`n_agents ≤ len(agent_label)` so lines 65-66 do not raise), then the restore
has bound `observation`/`nobservation` but not `observations`, and the first
transition append (line 90) raises an unbound-name error for `observations`;
and in all cases the prefix returns an error.  An empty buffer is falsy and
is treated as if absent. -/
theorem exp_buffer_restore_never_succeeds (β : Type) (n_agents : ℕ)
    (args : Args) (l : List β) (hne : l ≠ [])
    (hmel : 1 ≤ args.max_ep_len) :
    (runToFirstAppend n_agents args (some l)).isOk = false
    ∧ (6 ≤ l.length → 1 ≤ args.n_ep_fixed →
        n_agents ≤ args.agent_label.length →
        runToFirstAppend n_agents args (some l)
          = Except.error (PyErr.unboundLocalError "observations"))
    ∧ (l.length < 6 →
        runToFirstAppend n_agents args (some l)
          = Except.error PyErr.indexError) := by
  have hempty : l.isEmpty = false := by
    cases l with
    | nil => exact absurd rfl hne
    | cons x xs => rfl
  by_cases hlen : 6 ≤ l.length
  · have h6 : initBufferNames (some l)
        = (Except.ok ["states", "nstates", "actions", "rewards",
            "observation", "nobservation"] : Except PyErr (List String)) := by
      simp only [initBufferNames, hempty, Bool.false_eq_true, if_false,
        if_pos hlen]
    by_cases hnef : args.n_ep_fixed = 0
    · have hmod : episodeIndexMod 0 args.n_ep_fixed
          = Except.error PyErr.zeroDivisionError := by
        unfold episodeIndexMod
        rw [if_pos hnef]
      have hrun : runToFirstAppend n_agents args (some l)
          = Except.error PyErr.zeroDivisionError := by
        unfold runToFirstAppend initRPBCAC
        rw [h6, hmod]
        rfl
      exact ⟨by rw [hrun]; rfl,
        fun _ h1 _ => absurd hnef (by omega),
        fun hlt => absurd hlen (by omega)⟩
    · have hmod : episodeIndexMod 0 args.n_ep_fixed
          = Except.ok (0 % args.n_ep_fixed) := by
        unfold episodeIndexMod
        rw [if_neg hnef]
      by_cases hlab : n_agents ≤ args.agent_label.length
      · have hest : estReturnsLabelReads n_agents args.agent_label
            = Except.ok () := by
          unfold estReturnsLabelReads
          rw [if_pos hlab]
        have hrun : runToFirstAppend n_agents args (some l)
            = Except.error (PyErr.unboundLocalError "observations") := by
          unfold runToFirstAppend initRPBCAC
          rw [h6, hmod, hest]
          rfl
        exact ⟨by rw [hrun]; rfl, fun _ _ _ => hrun,
          fun hlt => absurd hlen (by omega)⟩
      · have hest : estReturnsLabelReads n_agents args.agent_label
            = Except.error PyErr.indexError := by
          unfold estReturnsLabelReads
          rw [if_neg hlab]
        have hrun : runToFirstAppend n_agents args (some l)
            = Except.error PyErr.indexError := by
          unfold runToFirstAppend initRPBCAC
          rw [h6, hmod, hest]
          rfl
        exact ⟨by rw [hrun]; rfl, fun _ _ hl => absurd hl hlab,
          fun hlt => absurd hlen (by omega)⟩
  · have h6 : initBufferNames (some l)
        = (Except.error PyErr.indexError : Except PyErr (List String)) := by
      simp only [initBufferNames, hempty, Bool.false_eq_true, if_false,
        if_neg hlen]
    have hrun : runToFirstAppend n_agents args (some l)
        = Except.error PyErr.indexError := by
      unfold runToFirstAppend initRPBCAC
      rw [h6]
      rfl
    exact ⟨by rw [hrun]; rfl, fun h6' _ _ => absurd h6' hlen, fun _ => hrun⟩

/-- Witness for C10 (amended), at the well-formed `goodArgs` configuration:
a six-entry buffer hits the unbound-name error for `observations` at the
first append; a one-entry buffer hits `IndexError` at the restore. -/
theorem exp_buffer_restore_never_succeeds_witness :
    runToFirstAppend 2 goodArgs
        (some ([(), (), (), (), (), ()] : List Unit))
      = Except.error (PyErr.unboundLocalError "observations")
    ∧ runToFirstAppend 2 goodArgs (some ([()] : List Unit))
      = Except.error PyErr.indexError := by
  exact ⟨(exp_buffer_restore_never_succeeds Unit 2 goodArgs
      [(), (), (), (), (), ()] (by decide) (by decide)).2.1
        (by decide) (by decide) (by decide),
    (exp_buffer_restore_never_succeeds Unit 2 goodArgs [()]
      (by decide) (by decide)).2.2 (by decide)⟩

end RPBCAC
